import Mathlib

/-!
Shallow embedding of lighthouse-keeper (`src/dist/bundle.js`).

Modelling conventions:
 - JavaScript numbers are modelled as exact rationals plus a NaN element
   (`JsNum`); IEEE-754 rounding is abstracted to exact rational arithmetic.
 - JavaScript objects with string keys are modelled as association lists in
   insertion order; the keys of an actual JS object are distinct.
 - Thrown JS exceptions are modelled with `Except JsError`; a `TypeError`
   (dereference of `null`/`undefined`) is kept distinct from a descriptive
   `Error` thrown by the program.
 - Printing (`console.info`, tables, colors) carries no data flow into the
   returned values, and is dropped; the lookups performed while printing are
   kept, because they can throw.
-/

set_option autoImplicit false

/-- A JavaScript runtime error: `TypeError` (null/undefined dereference) or a
descriptive `Error` with a message. -/
inductive JsError where
  | typeError (msg : String)
  | error (msg : String)
  deriving DecidableEq, Repr

/-- A JavaScript number: NaN or an exact rational value (IEEE-754 rounding is
abstracted away). -/
inductive JsNum where
  | nan
  | num (q : Rat)
  deriving DecidableEq, Repr

/-- JS `>=` on numbers: any comparison with NaN is false. -/
def jsGe : JsNum → JsNum → Bool
  | JsNum.num a, JsNum.num b => a ≥ b
  | _, _ => false

/-- JS `<` on numbers: any comparison with NaN is false. -/
def jsLt : JsNum → JsNum → Bool
  | JsNum.num a, JsNum.num b => a < b
  | _, _ => false

/-- JS `*` on numbers: NaN is absorbing. -/
def jsMul : JsNum → JsNum → JsNum
  | JsNum.num a, JsNum.num b => JsNum.num (a * b)
  | _, _ => JsNum.nan

/-- JS truthiness of a number: `0` and `NaN` are falsy. -/
def jsNumTruthy : JsNum → Bool
  | JsNum.nan => false
  | JsNum.num q => q ≠ 0

/-- JS truthiness of an optional boolean field (`undefined` is falsy). -/
def jsTruthy : Option Bool → Bool
  | none => false
  | some b => b

/-- JS truthiness of a string (the empty string is falsy). -/
def jsStrTruthy (s : String) : Bool :=
  s ≠ ""

/-- Numeric value of a list of decimal digits. -/
def digitsVal (l : List Char) : Nat :=
  l.foldl (fun a c => 10 * a + (c.toNat - 48)) 0

/-- JS `ToNumber` on a string (as in `categoryMinScore * 1`), restricted to
the grammar `digits`, `digits.digits`, `.digits`, `digits.` and the empty
string (which converts to `0`); any other string converts to NaN. Signs,
exponents, hex literals and surrounding whitespace do not occur in this
program's inputs and are not modelled. -/
def toNumber (s : String) : JsNum :=
  let l := s.toList
  if l.isEmpty then JsNum.num 0
  else if l.all Char.isDigit then JsNum.num (digitsVal l)
  else
    let intPart := l.takeWhile (fun c => c ≠ '.')
    match l.dropWhile (fun c => c ≠ '.') with
    | '.' :: frac =>
        if intPart.isEmpty && frac.isEmpty then JsNum.nan
        else if intPart.all Char.isDigit && frac.all Char.isDigit then
          JsNum.num ((digitsVal intPart : Rat) + (digitsVal frac : Rat) / ((10 : Rat) ^ frac.length))
        else JsNum.nan
    | _ => JsNum.nan

/-- Splits a character list at the last `:` that has a nonempty suffix;
returns the parts before and after that colon, or `none` when no such colon
exists. Helper for `matchColonPair`. -/
def splitLastColon : List Char → Option (List Char × List Char)
  | [] => none
  | c :: cs =>
    match splitLastColon cs with
    | some (a, b) => some (c :: a, b)
    | none => if c = ':' ∧ cs ≠ [] then some ([], cs) else none

/-- JS `s.match(/(.+):(.+)/)`, returning the two capture groups. Both `.+`
are greedy, so the string is split at the LAST colon that has at least one
character on each side. Modelled for strings without line terminators (JS
`.` does not match them; the comma-separated CLI flag values this program
applies the regex to contain none). -/
def matchColonPair (s : String) : Option (String × String) :=
  match splitLastColon s.toList with
  | some (a, b) => if a = [] then none else some (String.mk a, String.mk b)
  | none => none

/-- Lookup in a JS object modelled as an association list. -/
def objGet {α : Type} (l : List (String × α)) (k : String) : Option α :=
  match l with
  | [] => none
  | p :: rest => if p.1 = k then some p.2 else objGet rest k

/-- JS property assignment `obj[k] = v` on an object modelled as an
association list: an existing key keeps its position, a new key is appended
(JS string-keyed insertion order). -/
def objSet {α : Type} (l : List (String × α)) (k : String) (v : α) : List (String × α) :=
  match l with
  | [] => [(k, v)]
  | p :: rest => if p.1 = k then (k, v) :: rest else p :: objSet rest k v

/-- Message of the TypeError raised by `result[1]` when
`score.match(/(.+):(.+)/)` returned `null`. -/
def nullDerefMsg : String :=
  "Cannot read properties of null"

/-- Message of the TypeError raised by dereferencing `undefined`. -/
def undefinedDerefMsg : String :=
  "Cannot read properties of undefined"

/-- JS `String.prototype.split` with separator `","`: `""` splits to `[""]`,
a trailing separator yields a trailing empty token. -/
def splitComma (l : List Char) : List (List Char) :=
  match l with
  | [] => [[]]
  | c :: cs =>
    match splitComma cs with
    | [] => [[]]
    | t :: ts => if c = ',' then [] :: t :: ts else (c :: t) :: ts

/-- JS `s.split(',')` on a string. -/
def jsSplitComma (s : String) : List String :=
  (splitComma s.toList).map String.mk

/-- One iteration of the `scores.split(',').forEach` loop in `getConfig`
(bundle.js lines 25-30): match the token against `/(.+):(.+)/`, then store
`result[2] * 1` under key `result[1]`; a failed match leaves `result` null
and the `result[1]` dereference throws a TypeError. -/
def parseScoreToken (acc : List (String × JsNum)) (tok : String) :
    Except JsError (List (String × JsNum)) :=
  match matchColonPair tok with
  | some (categoryId, categoryMinScore) =>
      Except.ok (objSet acc categoryId (toNumber categoryMinScore))
  | none => Except.error (JsError.typeError nullDerefMsg)

/-- The `--scores` parsing loop of `getConfig` (bundle.js lines 25-30),
starting from the empty `options.scores = {}` object. -/
def parseScores (s : String) : Except JsError (List (String × JsNum)) :=
  (jsSplitComma s).foldlM parseScoreToken []

/-- The options record built by `getConfig`/`prepareOptions`. Each field is
`none` when the corresponding key is absent from the JS object. `urls` holds
optional strings because `options.urls = [url]` stores `undefined` when no
`--url` flag was given. -/
structure Options where
  urls : Option (List (Option String))
  onlyAudits : Option (List String)
  scores : Option (List (String × JsNum))
  showAudits : Option Bool
  extendedInfo : Option Bool
  allAudits : Option Bool
  deriving DecidableEq, Repr

/-- The flags path of `getConfig` (bundle.js lines 6-39, `argv.config`
absent; the config-file branch reads the filesystem and is not modelled).
Arguments are the `argv` fields `url`, `audits`, `scores` (each `none` when
the flag is absent) and the truthiness of `argv.showaudits`. -/
def getConfig (url : Option String) (audits : Option String) (scores : Option String)
    (showaudits : Bool) : Except JsError Options := do
  let onlyAudits : Option (List String) :=
    match audits with
    | some a => if jsStrTruthy a then some (jsSplitComma a) else none
    | none => none
  let scoresVal : Option (List (String × JsNum)) ←
    match scores with
    | some s =>
        if jsStrTruthy s then do
          let m ← parseScores s
          pure (some m)
        else pure none
    | none => pure none
  pure { urls := some [url], onlyAudits := onlyAudits, scores := scoresVal,
         showAudits := if showaudits then some true else none,
         extendedInfo := none, allAudits := none }

/-- The defaulting step of `prepareOptions` (bundle.js lines 41-62): copy the
options and fill in `urls`, `extendedInfo`, `allAudits`, `onlyAudits` when
the key is absent. `showAudits` is not among the defaults. -/
def prepareOptions (opts : Options) : Options :=
  { opts with
    urls := some (opts.urls.getD []),
    extendedInfo := some (opts.extendedInfo.getD false),
    allAudits := some (opts.allAudits.getD false),
    onlyAudits := some (opts.onlyAudits.getD []) }

/-- An audit record of the engine's report: the fields `scan` and
`auditPassedStatus` read. `score` is `none` when the engine reported
`score: null`. -/
structure Audit where
  id : String
  title : String
  description : String
  score : Option JsNum
  scoreDisplayMode : String
  deriving DecidableEq, Repr

/-- An entry of a category's `auditRefs` list: only the `id` field is read. -/
structure AuditRef where
  id : String
  deriving DecidableEq, Repr

/-- A category record of the engine's report: the fields read by `scan`. -/
structure Category where
  title : String
  score : JsNum
  auditRefs : List AuditRef
  deriving DecidableEq, Repr

/-- The engine's report (`results`): the `categories` and `audits` objects,
as association lists in key-insertion order. -/
structure Report where
  categories : List (String × Category)
  audits : List (String × Audit)
  deriving DecidableEq, Repr

/-- JS `Number(audit.score)`: `null` converts to `0`, a number to itself. -/
def scoreToNumber : Option JsNum → JsNum
  | none => JsNum.num 0
  | some n => n

/-- The classification `auditPassedStatus` (bundle.js lines 118-131):
`0` = not passed, `1` = passed, `2` = not applicable. `numeric`, `binary`
and every unlisted `scoreDisplayMode` fall through to the default arm. -/
def auditPassedStatus (audit : Audit) : Nat :=
  if audit.scoreDisplayMode = "manual" then 2
  else if audit.scoreDisplayMode = "not-applicable" then 2
  else if audit.scoreDisplayMode = "informative" then 2
  else if audit.scoreDisplayMode = "error" then 0
  else if jsGe (scoreToNumber audit.score) (JsNum.num (3 / 4)) then 1 else 0

/-- The filter callback of `filterAudits` (bundle.js lines 65-74). The `&&`
short-circuits: when `options.allAudits` is truthy, `options.onlyAudits` is
never dereferenced; when it is falsy and `options.onlyAudits` is absent, the
`.length` access throws a TypeError. -/
def filterAuditsKeep (options : Options) (audit : AuditRef) : Except JsError Bool :=
  if !jsTruthy options.allAudits then
    match options.onlyAudits with
    | none => Except.error (JsError.typeError undefinedDerefMsg)
    | some onlyAudits =>
        if onlyAudits.length > 0 then Except.ok (onlyAudits.contains audit.id)
        else Except.ok true
  else Except.ok true

/-- JS `Array.prototype.filter` with a callback that can throw: elements are
visited left to right and a thrown error aborts the traversal. -/
def exceptFilter {ε α : Type} (p : α → Except ε Bool) : List α → Except ε (List α)
  | [] => Except.ok []
  | a :: rest => do
    let keep ← p a
    let tail ← exceptFilter p rest
    pure (if keep then a :: tail else tail)

/-- `filterAudits(category, options)` (bundle.js lines 64-77). -/
def filterAudits (category : Category) (options : Options) :
    Except JsError (List AuditRef) :=
  exceptFilter (filterAuditsKeep options) category.auditRefs

/-- `validateAudits(categories, options)` (bundle.js lines 79-96): for each
id of `options.onlyAudits` (skipped entirely when the key is absent), throw
a descriptive error unless some category's `auditRefs` contains the id. -/
def validateAudits (categories : List (String × Category)) (options : Options) :
    Except JsError Unit :=
  match options.onlyAudits with
  | none => Except.ok ()
  | some onlyAudits =>
      onlyAudits.foldlM
        (fun _ auditId =>
          let validAudit :=
            categories.any (fun c => c.2.auditRefs.any (fun ar => ar.id = auditId))
          if validAudit then Except.ok ()
          else Except.error (JsError.error ("Audit <" ++ auditId ++ "> is unknown")))
        ()

/-- `validateCategories(categories, options)` (bundle.js lines 98-107): for
each key of `options.scores` (skipped entirely when the key is absent),
throw a descriptive error unless the key names a category. -/
def validateCategories (categories : List (String × Category)) (options : Options) :
    Except JsError Unit :=
  match options.scores with
  | none => Except.ok ()
  | some scores =>
      scores.foldlM
        (fun _ p =>
          match objGet categories p.1 with
          | some _ => Except.ok ()
          | none => Except.error (JsError.error ("Category <" ++ p.1 ++ "> is unknown")))
        ()

/-- A row of the scores table: category title, configured minimum and
`category.score * 100` (the pass/fail glyph is determined by the two
numbers). -/
structure ScoreRow where
  category : String
  minScore : JsNum
  score : JsNum
  deriving DecidableEq, Repr

/-- The scores section of `scan` (bundle.js lines 220-246), entered when
`options.scores` is present: for each key, look the category up (a missing
category makes `category.score` throw), compute `score = category.score *
100`, and when the configured minimum is truthy, append a table row and
record a failure when `score >= minScore` is false. Returns the table rows
and the failure flag. -/
def scanScoresStep (categories : List (String × Category)) (acc : List ScoreRow × Bool)
    (p : String × JsNum) : Except JsError (List ScoreRow × Bool) := do
  let category ←
    match objGet categories p.1 with
    | some c => pure c
    | none => Except.error (JsError.typeError undefinedDerefMsg)
  let score := jsMul category.score (JsNum.num 100)
  let minScore := p.2
  if jsNumTruthy minScore then
    let passed := jsGe score minScore
    pure (acc.1 ++ [{ category := category.title, minScore := minScore, score := score }],
          if !passed then true else acc.2)
  else pure acc

/-- The iteration over `Object.keys(options.scores)` (bundle.js lines
225-246), one `scanScoresStep` per key, starting from the empty table and
the failure flag as it stands there (`false`). -/
def scanScores (categories : List (String × Category)) (scores : List (String × JsNum)) :
    Except JsError (List ScoreRow × Bool) :=
  scores.foldlM (scanScoresStep categories) ([], false)

/-- The audits section of `scan` (bundle.js lines 264-315): for every
category, filter its audit refs, look each audit up (a missing audit makes
`auditPassedStatus` dereference `undefined`), and record a failure for every
status that is neither `2` nor `1`. The tables and `extendedInfo` printing
carry no data into the returned flag. -/
def scanAudits (results : Report) (options : Options) (hasFailures : Bool) :
    Except JsError Bool :=
  results.categories.foldlM
    (fun acc c => do
      let auditRefs ← filterAudits c.2 options
      auditRefs.foldlM
        (fun acc2 auditRef => do
          let audit ←
            match objGet results.audits auditRef.id with
            | some a => pure a
            | none => Except.error (JsError.typeError undefinedDerefMsg)
          let passedStatus := auditPassedStatus audit
          if passedStatus = 2 then pure acc2
          else if passedStatus = 1 then pure acc2
          else pure true)
        acc)
    hasFailures

/-- The `showAudits` branch of `scan` (bundle.js lines 196-213): print every
category's audits. Only the `results.audits[auditRef.id]` lookups are kept;
on a report whose `auditRefs` all resolve they cannot throw. -/
def scanShowAudits (results : Report) : Except JsError Unit :=
  results.categories.forM
    (fun c =>
      c.2.auditRefs.forM
        (fun auditRef =>
          match objGet results.audits auditRef.id with
          | some _ => Except.ok ()
          | none => Except.error (JsError.typeError undefinedDerefMsg)))

/-- `scan(url, options)` after the report has been obtained (bundle.js lines
191-318): the `showAudits` branch returns `false` without validating or
scoring; otherwise both validators run, then the scores section (when
`options.scores` is present) and the audits section accumulate the failure
flag that is returned. -/
def scan (results : Report) (options : Options) : Except JsError Bool := do
  if jsTruthy options.showAudits then do
    scanShowAudits results
    pure false
  else do
    validateCategories results.categories options
    validateAudits results.categories options
    let hasFailures ←
      match options.scores with
      | some scores => do
          let r ← scanScores results.categories scores
          pure r.2
      | none => pure false
    scanAudits results options hasFailures

deriving instance DecidableEq for Except

/-- A JS line terminator (`\n`, `\r`, U+2028, U+2029): the characters the
regex `.` does not match. -/
def isLineTerminator (c : Char) : Bool :=
  c = Char.ofNat 10 ∨ c = Char.ofNat 13 ∨ c = Char.ofNat 0x2028 ∨ c = Char.ofNat 0x2029

/-- The table row the scores section builds for a `options.scores` entry
whose category exists (the `none` arm is never reached under the lookup
hypotheses used below). -/
def scoreRowOf (cats : List (String × Category)) (p : String × JsNum) : ScoreRow :=
  match objGet cats p.1 with
  | some c => { category := c.title, minScore := p.2, score := jsMul c.score (JsNum.num 100) }
  | none => { category := "", minScore := p.2, score := JsNum.nan }

/-- Concrete audit with `scoreDisplayMode` manual and a failing score. -/
def auditManualW : Audit :=
  { id := "m", title := "t", description := "d", score := some (JsNum.num 0),
    scoreDisplayMode := "manual" }

/-- Concrete audit with `scoreDisplayMode` error and a perfect score. -/
def auditErrorW : Audit :=
  { id := "e", title := "t", description := "d", score := some (JsNum.num 1),
    scoreDisplayMode := "error" }

/-- Concrete numeric audit at the 0.75 boundary. -/
def auditBoundaryW : Audit :=
  { id := "b", title := "t", description := "d", score := some (JsNum.num (3 / 4)),
    scoreDisplayMode := "numeric" }

/-- Concrete binary audit just below the boundary. -/
def auditBelowW : Audit :=
  { id := "l", title := "t", description := "d", score := some (JsNum.num (7499 / 10000)),
    scoreDisplayMode := "binary" }

/-- Concrete numeric audit with a null score. -/
def auditNullW : Audit :=
  { id := "n", title := "t", description := "d", score := none,
    scoreDisplayMode := "numeric" }

/-- Concrete audit reference with id a. -/
def refA : AuditRef := { id := "a" }

/-- Concrete audit reference with id b. -/
def refB : AuditRef := { id := "b" }

/-- Concrete audit reference with id c. -/
def refC : AuditRef := { id := "c" }

/-- Concrete category with audit refs a, b, c. -/
def catABC : Category :=
  { title := "cat", score := JsNum.num 1, auditRefs := [refA, refB, refC] }

/-- Concrete prepared options with `onlyAudits = [a, b]` and all audits off. -/
def optsOnlyAB : Options :=
  { urls := some [], onlyAudits := some [("a" : String), "b"], scores := none,
    showAudits := none, extendedInfo := some false, allAudits := some false }

/-- Concrete category holding the audit reference a. -/
def catFoo : Category := { title := "Foo", score := JsNum.num 1, auditRefs := [refA] }

/-- Concrete options whose scores key bar names no category. -/
def optsScoresBar : Options :=
  { urls := none, onlyAudits := none, scores := some [(("bar" : String), JsNum.num 50)],
    showAudits := none, extendedInfo := none, allAudits := none }

/-- Concrete options whose scores key foo names an existing category. -/
def optsScoresFoo : Options :=
  { urls := none, onlyAudits := none, scores := some [(("foo" : String), JsNum.num 50)],
    showAudits := none, extendedInfo := none, allAudits := none }

/-- Concrete options selecting the known audit a. -/
def optsOnlyA : Options :=
  { urls := none, onlyAudits := some [("a" : String)], scores := none,
    showAudits := none, extendedInfo := none, allAudits := none }

/-- Concrete options selecting the unknown audit z. -/
def optsOnlyZ : Options :=
  { urls := none, onlyAudits := some [("z" : String)], scores := none,
    showAudits := none, extendedInfo := none, allAudits := none }

/-- Concrete category with the worst possible score. -/
def catLowPerf : Category := { title := "Perf", score := JsNum.num 0, auditRefs := [] }

/-- Concrete category scoring 0.9. -/
def catSeo : Category := { title := "SEO", score := JsNum.num (9 / 10), auditRefs := [] }

/-- Concrete categories object with keys perf and seo. -/
def catsW : List (String × Category) :=
  [(("perf" : String), catLowPerf), (("seo" : String), catSeo)]

/-- Concrete scores object: perf has the falsy minimum 0, seo the truthy
minimum 95. -/
def scoresW : List (String × JsNum) :=
  [(("perf" : String), JsNum.num 0), (("seo" : String), JsNum.num 95)]

/-- Concrete audit a1 for the showAudits report. -/
def auditA1W : Audit :=
  { id := "a1", title := "t", description := "d", score := some (JsNum.num 0),
    scoreDisplayMode := "numeric" }

/-- Concrete audit reference for a1. -/
def refA1W : AuditRef := { id := "a1" }

/-- Concrete category referencing a1. -/
def catPerfW : Category := { title := "Perf", score := JsNum.num 0, auditRefs := [refA1W] }

/-- Concrete well-formed report: every audit reference resolves. -/
def repW : Report :=
  { categories := [(("perf" : String), catPerfW)], audits := [(("a1" : String), auditA1W)] }

/-- Concrete options with `showAudits` set and ids unknown to `repW` in both
`scores` and `onlyAudits`. -/
def optsShowW : Options :=
  { urls := some [], onlyAudits := some [("bogusaudit" : String)],
    scores := some [(("boguscat" : String), JsNum.num 50)],
    showAudits := some true, extendedInfo := some false, allAudits := some false }

theorem except_pure_eq_ok {ε α : Type} (a : α) : (pure a : Except ε α) = Except.ok a := rfl

theorem except_bind_error {ε α β : Type} (e : ε) (f : α → Except ε β) :
    (Except.error e >>= f) = Except.error e := rfl

theorem except_bind_ok {ε α β : Type} (a : α) (f : α → Except ε β) :
    (Except.ok a >>= f) = f a := rfl

theorem except_map_error {ε α β : Type} (e : ε) (f : α → β) :
    (f <$> (Except.error e : Except ε α)) = Except.error e := rfl

theorem except_map_ok {ε α β : Type} (a : α) (f : α → β) :
    (f <$> (Except.ok a : Except ε α)) = Except.ok (f a) := rfl

theorem splitLastColon_eq_none (l : List Char) (h : ':' ∉ l) :
    splitLastColon l = none := by
  induction l with
  | nil => rfl
  | cons c cs ih =>
    simp only [List.mem_cons, not_or] at h
    obtain ⟨h1, h2⟩ := h
    have hc : ¬ c = ':' := fun hc => h1 hc.symm
    simp [splitLastColon, ih h2, hc]

theorem splitLastColon_append (pre post : List Char) (hpost : post ≠ [])
    (hnc : ':' ∉ post) :
    splitLastColon (pre ++ ':' :: post) = some (pre, post) := by
  induction pre with
  | nil => simp [splitLastColon, splitLastColon_eq_none post hnc, hpost]
  | cons c cs ih => simp [splitLastColon, ih]

theorem matchColonPair_eq_none (tok : String) (hnc : ':' ∉ tok.toList) :
    matchColonPair tok = none := by
  have h : splitLastColon tok.data = none := splitLastColon_eq_none tok.toList hnc
  simp [matchColonPair, h]

theorem parseScoreFold_error (toks : List String) (acc : List (String × JsNum))
    (h : ∃ t ∈ toks, matchColonPair t = none) :
    toks.foldlM parseScoreToken acc = Except.error (JsError.typeError nullDerefMsg) := by
  induction toks generalizing acc with
  | nil => simp at h
  | cons t ts ih =>
    obtain ⟨t0, hmem, hm⟩ := h
    rcases List.mem_cons.mp hmem with rfl | hmem2
    · simp [List.foldlM_cons, parseScoreToken, hm, except_bind_error]
    · cases hmt : matchColonPair t with
      | none => simp [List.foldlM_cons, parseScoreToken, hmt, except_bind_error]
      | some pr =>
        simp only [List.foldlM_cons, parseScoreToken, hmt, except_bind_ok]
        exact ih _ ⟨t0, hmem2, hm⟩

theorem exceptFilter_congr {ε α : Type} (p : α → Except ε Bool) (f : α → Bool) (l : List α)
    (h : ∀ a ∈ l, p a = Except.ok (f a)) :
    exceptFilter p l = Except.ok (l.filter f) := by
  induction l with
  | nil => rfl
  | cons a rest ih =>
    have ha := h a (List.mem_cons_self a rest)
    have hr := ih (fun x hx => h x (List.mem_cons_of_mem a hx))
    simp only [exceptFilter, ha, hr, except_bind_ok, List.filter_cons]
    cases f a <;> simp [except_pure_eq_ok]

theorem catCheckFold_ok_iff (cats : List (String × Category))
    (scores : List (String × JsNum)) :
    List.foldlM
        (fun (_ : Unit) p =>
          match objGet cats p.1 with
          | some _ => Except.ok ()
          | none => Except.error (JsError.error ("Category <" ++ p.1 ++ "> is unknown")))
        () scores = Except.ok () ↔
      ∀ p ∈ scores, (objGet cats p.1).isSome = true := by
  induction scores with
  | nil => simp [List.foldlM_nil, except_pure_eq_ok]
  | cons p rest ih =>
    cases hg : objGet cats p.1 with
    | some c =>
      simp only [List.foldlM_cons, hg, except_bind_ok, List.forall_mem_cons,
        Option.isSome_some, true_and]
      exact ih
    | none =>
      simp only [List.foldlM_cons, hg, except_bind_error]
      constructor
      · intro h; exact Except.noConfusion h
      · intro h
        have hp := h p (List.mem_cons_self p rest)
        rw [hg] at hp
        exact Bool.noConfusion hp

theorem catCheckFold_error (cats : List (String × Category))
    (scores : List (String × JsNum)) (e : JsError)
    (h : List.foldlM
        (fun (_ : Unit) p =>
          match objGet cats p.1 with
          | some _ => Except.ok ()
          | none => Except.error (JsError.error ("Category <" ++ p.1 ++ "> is unknown")))
        () scores = Except.error e) :
    ∃ p ∈ scores, objGet cats p.1 = none ∧
      e = JsError.error ("Category <" ++ p.1 ++ "> is unknown") := by
  induction scores with
  | nil => exact Except.noConfusion h
  | cons p rest ih =>
    cases hg : objGet cats p.1 with
    | some c =>
      rw [List.foldlM_cons] at h
      simp only [hg, except_bind_ok] at h
      obtain ⟨p0, hp0, hrest⟩ := ih h
      exact ⟨p0, List.mem_cons_of_mem p hp0, hrest⟩
    | none =>
      rw [List.foldlM_cons] at h
      simp only [hg, except_bind_error] at h
      exact ⟨p, List.mem_cons_self p rest, hg, (Except.error.inj h).symm⟩

theorem auditCheckFold_ok_iff (cats : List (String × Category)) (oa : List String) :
    List.foldlM
        (fun (_ : Unit) auditId =>
          if cats.any (fun c => c.2.auditRefs.any (fun ar => ar.id = auditId)) then Except.ok ()
          else Except.error (JsError.error ("Audit <" ++ auditId ++ "> is unknown")))
        () oa = Except.ok () ↔
      ∀ aid ∈ oa, cats.any (fun c => c.2.auditRefs.any (fun ar => ar.id = aid)) = true := by
  induction oa with
  | nil => simp [List.foldlM_nil, except_pure_eq_ok]
  | cons aid rest ih =>
    cases hv : cats.any (fun c => c.2.auditRefs.any (fun ar => ar.id = aid)) with
    | true =>
      simp only [List.foldlM_cons, hv, if_true, except_bind_ok, List.forall_mem_cons, true_and]
      exact ih
    | false =>
      simp only [List.foldlM_cons, hv, Bool.false_eq_true, if_false, except_bind_error]
      constructor
      · intro h; exact Except.noConfusion h
      · intro h
        have hp := h aid (List.mem_cons_self aid rest)
        rw [hv] at hp
        exact Bool.noConfusion hp

theorem auditCheckFold_error (cats : List (String × Category)) (oa : List String) (e : JsError)
    (h : List.foldlM
        (fun (_ : Unit) auditId =>
          if cats.any (fun c => c.2.auditRefs.any (fun ar => ar.id = auditId)) then Except.ok ()
          else Except.error (JsError.error ("Audit <" ++ auditId ++ "> is unknown")))
        () oa = Except.error e) :
    ∃ aid ∈ oa, cats.any (fun c => c.2.auditRefs.any (fun ar => ar.id = aid)) = false ∧
      e = JsError.error ("Audit <" ++ aid ++ "> is unknown") := by
  induction oa with
  | nil => exact Except.noConfusion h
  | cons aid rest ih =>
    cases hv : cats.any (fun c => c.2.auditRefs.any (fun ar => ar.id = aid)) with
    | true =>
      rw [List.foldlM_cons] at h
      simp only [hv, if_true, except_bind_ok] at h
      obtain ⟨a0, ha0, hrest⟩ := ih h
      exact ⟨a0, List.mem_cons_of_mem aid ha0, hrest⟩
    | false =>
      rw [List.foldlM_cons] at h
      simp only [hv, Bool.false_eq_true, if_false, except_bind_error] at h
      exact ⟨aid, List.mem_cons_self aid rest, hv, (Except.error.inj h).symm⟩

theorem scanScoresStep_skip (cats : List (String × Category)) (acc : List ScoreRow × Bool)
    (p : String × JsNum) (c : Category) (hg : objGet cats p.1 = some c)
    (ht : jsNumTruthy p.2 = false) :
    scanScoresStep cats acc p = Except.ok acc := by
  simp [scanScoresStep, hg, ht, except_bind_ok, except_pure_eq_ok]

theorem scanScoresStep_row (cats : List (String × Category)) (acc : List ScoreRow × Bool)
    (p : String × JsNum) (c : Category) (hg : objGet cats p.1 = some c)
    (ht : jsNumTruthy p.2 = true) (hnan : c.score ≠ JsNum.nan) :
    scanScoresStep cats acc p =
      Except.ok (acc.1 ++ [scoreRowOf cats p],
        acc.2 || jsLt (scoreRowOf cats p).score p.2) := by
  obtain ⟨q, hq⟩ : ∃ q, c.score = JsNum.num q := by
    cases hs : c.score with
    | nan => exact absurd hs hnan
    | num q => exact ⟨q, rfl⟩
  obtain ⟨m, hm⟩ : ∃ m, p.2 = JsNum.num m := by
    cases hs : p.2 with
    | nan => rw [hs] at ht; exact Bool.noConfusion ht
    | num m => exact ⟨m, rfl⟩
  have hrow : scoreRowOf cats p =
      { category := c.title, minScore := p.2, score := jsMul c.score (JsNum.num 100) } := by
    simp [scoreRowOf, hg]
  have hb : (!jsGe (jsMul c.score (JsNum.num 100)) p.2 || acc.2) =
      (acc.2 || jsLt (jsMul c.score (JsNum.num 100)) p.2) := by
    rw [hq, hm]
    by_cases hc : (q * 100 : Rat) < m
    · have hge : ¬ (q * 100 ≥ m) := not_le.mpr hc
      simp [jsGe, jsLt, jsMul, hc, hge]
    · have hge : (q * 100 : Rat) ≥ m := not_lt.mp hc
      simp [jsGe, jsLt, jsMul, hc, hge]
  simp [scanScoresStep, hg, ht, except_bind_ok, except_pure_eq_ok, hrow, hb]

theorem scanScoresFold (cats : List (String × Category)) (scores : List (String × JsNum))
    (acc : List ScoreRow × Bool)
    (hk : ∀ p ∈ scores, (objGet cats p.1).isSome = true)
    (hnum : ∀ p ∈ scores, ∀ c, objGet cats p.1 = some c → c.score ≠ JsNum.nan) :
    scores.foldlM (scanScoresStep cats) acc =
      Except.ok
        (acc.1 ++ (scores.filter (fun p => jsNumTruthy p.2)).map (scoreRowOf cats),
         acc.2 || (scores.filter (fun p => jsNumTruthy p.2)).any
           (fun p => jsLt (scoreRowOf cats p).score p.2)) := by
  induction scores generalizing acc with
  | nil => simp [List.foldlM_nil, except_pure_eq_ok]
  | cons p rest ih =>
    obtain ⟨c, hg⟩ := Option.isSome_iff_exists.mp (hk p (List.mem_cons_self p rest))
    have hk2 : ∀ x ∈ rest, (objGet cats x.1).isSome = true :=
      fun x hx => hk x (List.mem_cons_of_mem p hx)
    have hnum2 : ∀ x ∈ rest, ∀ c2, objGet cats x.1 = some c2 → c2.score ≠ JsNum.nan :=
      fun x hx => hnum x (List.mem_cons_of_mem p hx)
    rw [List.foldlM_cons]
    cases ht : jsNumTruthy p.2 with
    | false =>
      rw [scanScoresStep_skip cats acc p c hg ht, except_bind_ok, ih acc hk2 hnum2]
      simp [List.filter_cons, ht]
    | true =>
      rw [scanScoresStep_row cats acc p c hg ht (hnum p (List.mem_cons_self p rest) c hg),
        except_bind_ok, ih _ hk2 hnum2]
      simp [List.filter_cons, ht, List.append_assoc, Bool.or_assoc]

theorem forMExcept_ok {α : Type} (f : α → Except JsError Unit) (l : List α)
    (h : ∀ a ∈ l, f a = Except.ok ()) : l.forM f = Except.ok () := by
  induction l with
  | nil => rfl
  | cons a rest ih =>
    have ha := h a (List.mem_cons_self a rest)
    have hr := ih (fun x hx => h x (List.mem_cons_of_mem a hx))
    simp [List.forM, ha, hr, except_bind_ok]

theorem scanShowAudits_ok (results : Report)
    (hwf : ∀ c ∈ results.categories, ∀ ar ∈ c.2.auditRefs,
      (objGet results.audits ar.id).isSome = true) :
    scanShowAudits results = Except.ok () := by
  unfold scanShowAudits
  refine forMExcept_ok _ _ (fun c hc => ?_)
  refine forMExcept_ok _ _ (fun ar har => ?_)
  obtain ⟨a, ha⟩ := Option.isSome_iff_exists.mp (hwf c hc ar har)
  simp [ha]

/-- C1: `auditPassedStatus` is a total, deterministic classification: a
`scoreDisplayMode` among manual, not-applicable and informative yields 2
regardless of score; error yields 0 regardless of score; every other mode
(numeric, binary or unlisted) yields 1 exactly when the score is at least
0.75 and 0 otherwise, so 0.75 passes and 0.7499 fails (see the witness). -/
theorem c1_auditPassedStatus_classification (a : Audit) :
    (a.scoreDisplayMode ∈ [("manual" : String), "not-applicable", "informative"] →
      auditPassedStatus a = 2) ∧
    (a.scoreDisplayMode = "error" → auditPassedStatus a = 0) ∧
    (a.scoreDisplayMode ∉ [("manual" : String), "not-applicable", "informative", "error"] →
      ∀ q : Rat, a.score = some (JsNum.num q) →
        auditPassedStatus a = if 3 / 4 ≤ q then 1 else 0) := by
  refine ⟨?_, ?_, ?_⟩
  · intro h
    simp only [List.mem_cons, List.not_mem_nil, or_false] at h
    rcases h with h | h | h <;> simp [auditPassedStatus, h]
  · intro h
    simp [auditPassedStatus, h]
  · intro h q hq
    simp only [List.mem_cons, not_or, List.not_mem_nil] at h
    obtain ⟨h1, h2, h3, h4, -⟩ := h
    simp [auditPassedStatus, h1, h2, h3, h4, hq, scoreToNumber, jsGe, ge_iff_le]

/-- C1 witness: the classification evaluated at a manual audit, an error
audit, a numeric audit scoring exactly 0.75 and a binary audit scoring
0.7499. -/
theorem c1_auditPassedStatus_classification_witness :
    auditPassedStatus auditManualW = 2 ∧ auditPassedStatus auditErrorW = 0 ∧
    auditPassedStatus auditBoundaryW = 1 ∧ auditPassedStatus auditBelowW = 0 := by
  have hm := (c1_auditPassedStatus_classification auditManualW).1 (by decide)
  have he := (c1_auditPassedStatus_classification auditErrorW).2.1 (by decide)
  have hb := (c1_auditPassedStatus_classification auditBoundaryW).2.2 (by decide) (3 / 4) rfl
  have hl := (c1_auditPassedStatus_classification auditBelowW).2.2 (by decide) (7499 / 10000) rfl
  refine ⟨hm, he, ?_, ?_⟩
  · rw [hb]; norm_num
  · rw [hl]; norm_num

/-- C2 counterexample: the token `a:b:90` refutes the claim that the scores
mapping maps the substring before the FIRST colon (`a`) to the numeric value
of the rest (`b:90`): the code maps `a:b` to 90 instead, because the greedy
regex splits at the last colon. -/
theorem c2_first_colon_counterexample :
    parseScores ("a:b:90") = Except.ok [(("a:b" : String), JsNum.num 90)] ∧
    parseScores ("a:b:90") ≠ Except.ok [(("a" : String), toNumber ("b:90"))] := by
  constructor
  · rfl
  · decide

/-- C2 (amended): every `--scores` token splits at the LAST colon that has at
least one character on each side: the key is the substring before that colon
and the value is the numeric conversion of the substring after it (the
line-terminator hypothesis marks where the embedding of the regex `.` is
exact). -/
theorem c2_last_colon_split (pre post : List Char) (acc : List (String × JsNum))
    (hpre : pre ≠ []) (hpost : post ≠ []) (hnc : ':' ∉ post)
    (hlt : ∀ c ∈ pre ++ ':' :: post, isLineTerminator c = false) :
    matchColonPair (String.mk (pre ++ ':' :: post)) = some (String.mk pre, String.mk post) ∧
    parseScoreToken acc (String.mk (pre ++ ':' :: post)) =
      Except.ok (objSet acc (String.mk pre) (toNumber (String.mk post))) := by
  have hm : matchColonPair (String.mk (pre ++ ':' :: post)) =
      some (String.mk pre, String.mk post) := by
    simp [matchColonPair, splitLastColon_append pre post hpost hnc, hpre]
  exact ⟨hm, by simp [parseScoreToken, hm]⟩

/-- C2 witness: the split of `a:b:90` into key `a:b` and value 90. -/
theorem c2_last_colon_split_witness :
    matchColonPair ("a:b:90") = some (("a:b" : String), ("90" : String)) ∧
    parseScoreToken [] ("a:b:90") = Except.ok [(("a:b" : String), JsNum.num 90)] := by
  have h := c2_last_colon_split (['a', ':', 'b']) (['9', '0']) []
    (by decide) (by decide) (by decide) (by decide)
  have e1 : String.mk (['a', ':', 'b'] ++ ':' :: ['9', '0']) = ("a:b:90" : String) := by decide
  have e2 : String.mk (['a', ':', 'b']) = ("a:b" : String) := by decide
  have e3 : String.mk (['9', '0']) = ("90" : String) := by decide
  rw [e1, e2, e3] at h
  obtain ⟨h1, h2⟩ := h
  exact ⟨h1, by rw [h2]; rfl⟩

/-- C3: in the scores section of `scan`, an entry with a falsy minimum (0 or
NaN) produces no table row and never contributes to the failure flag,
regardless of the category's actual score, while the entries with truthy
minima each contribute a row and raise the flag exactly when
`category.score * 100` is strictly below the minimum. -/
theorem c3_scores_section (cats : List (String × Category)) (scores : List (String × JsNum))
    (hk : ∀ p ∈ scores, (objGet cats p.1).isSome = true)
    (hnum : ∀ p ∈ scores, ∀ c, objGet cats p.1 = some c → c.score ≠ JsNum.nan) :
    scanScores cats scores =
      Except.ok
        ((scores.filter (fun p => jsNumTruthy p.2)).map (scoreRowOf cats),
         (scores.filter (fun p => jsNumTruthy p.2)).any
           (fun p => jsLt (scoreRowOf cats p).score p.2)) := by
  have h := scanScoresFold cats scores ([], false) hk hnum
  simpa [scanScores] using h

/-- C3 witness: with perf at minimum 0 (falsy, and scoring 0, the worst
possible) and seo at minimum 95 (scoring 90), the table has only the seo
row and the failure flag is raised by seo alone. -/
theorem c3_scores_section_witness :
    scanScores catsW scoresW =
      Except.ok ([{ category := "SEO", minScore := JsNum.num 95, score := JsNum.num 90 }],
        true) := by
  have h := c3_scores_section catsW scoresW (by decide) (by decide)
  rw [h]
  have efil : List.filter (fun p => jsNumTruthy p.2) scoresW =
      [(("seo" : String), JsNum.num 95)] := by decide
  rw [efil]
  have e2 : objGet catsW ("seo") = some catSeo := rfl
  have e3 : (9 / 10 * 100 : Rat) = 90 := by norm_num
  simp [scoreRowOf, e2, catSeo, jsMul, e3, jsLt]
  norm_num

/-- C4: `filterAudits` keeps exactly the audit references whose id is in
`onlyAudits`, in their original order, when `allAudits` is falsy and
`onlyAudits` is non-empty; when `allAudits` is truthy, or `onlyAudits` is
empty, it returns the whole reference list unchanged. -/
theorem c4_filterAudits_cases (category : Category) (options : Options) :
    (jsTruthy options.allAudits = true →
      filterAudits category options = Except.ok category.auditRefs) ∧
    (∀ oa, options.onlyAudits = some oa → jsTruthy options.allAudits = false →
      (oa ≠ [] →
        filterAudits category options =
          Except.ok (category.auditRefs.filter (fun a => oa.contains a.id))) ∧
      (oa = [] → filterAudits category options = Except.ok category.auditRefs)) := by
  refine ⟨?_, ?_⟩
  · intro h
    have := exceptFilter_congr (filterAuditsKeep options) (fun _ => true)
      category.auditRefs (fun a _ => by simp [filterAuditsKeep, h])
    simpa [filterAudits, List.filter_true] using this
  · intro oa hoa hall
    constructor
    · intro hne
      have hlen : oa.length > 0 := List.length_pos.mpr hne
      have := exceptFilter_congr (filterAuditsKeep options) (fun a => oa.contains a.id)
        category.auditRefs (fun a _ => by simp [filterAuditsKeep, hall, hoa, hlen])
      simpa [filterAudits] using this
    · intro he
      subst he
      have := exceptFilter_congr (filterAuditsKeep options) (fun _ => true)
        category.auditRefs (fun a _ => by simp [filterAuditsKeep, hall, hoa])
      simpa [filterAudits, List.filter_true] using this

/-- C4 witness: on audit refs `[a, b, c]`, `onlyAudits = [a, b]` with
`allAudits` false gives `[a, b]` in order, and `allAudits` true gives
`[a, b, c]` despite `onlyAudits`. -/
theorem c4_filterAudits_cases_witness :
    filterAudits catABC optsOnlyAB = Except.ok [refA, refB] ∧
    filterAudits catABC { optsOnlyAB with allAudits := some true } =
      Except.ok [refA, refB, refC] := by
  constructor
  · have h := ((c4_filterAudits_cases catABC optsOnlyAB).2 [("a" : String), "b"] rfl rfl).1
      (by decide)
    rw [h]; rfl
  · have h := (c4_filterAudits_cases catABC { optsOnlyAB with allAudits := some true }).1 rfl
    rw [h]; rfl

/-- C5: `validateCategories` succeeds exactly when every key of
`options.scores` names an existing category (and always when the `scores`
key is absent), and any error it throws is the descriptive message naming an
unknown category key. -/
theorem c5_validateCategories_spec (cats : List (String × Category)) (options : Options) :
    (options.scores = none → validateCategories cats options = Except.ok ()) ∧
    (∀ scores, options.scores = some scores →
      ((validateCategories cats options = Except.ok () ↔
          ∀ p ∈ scores, (objGet cats p.1).isSome = true) ∧
        (∀ e, validateCategories cats options = Except.error e →
          ∃ p ∈ scores, objGet cats p.1 = none ∧
            e = JsError.error ("Category <" ++ p.1 ++ "> is unknown")))) := by
  refine ⟨fun h => by simp [validateCategories, h], fun scores hs => ?_⟩
  have hv : validateCategories cats options =
      List.foldlM
        (fun (_ : Unit) p =>
          match objGet cats p.1 with
          | some _ => Except.ok ()
          | none => Except.error (JsError.error ("Category <" ++ p.1 ++ "> is unknown")))
        () scores := by
    simp only [validateCategories, hs]
  rw [hv]
  exact ⟨catCheckFold_ok_iff cats scores, catCheckFold_error cats scores⟩

/-- C5 witness: with the single category foo, scores on foo pass and scores
on bar throw the error naming bar. -/
theorem c5_validateCategories_spec_witness :
    validateCategories [(("foo" : String), catFoo)] optsScoresFoo = Except.ok () ∧
    validateCategories [(("foo" : String), catFoo)] optsScoresBar =
      Except.error (JsError.error ("Category <bar> is unknown")) := by
  constructor
  · exact ((c5_validateCategories_spec [(("foo" : String), catFoo)] optsScoresFoo).2 _
      rfl).1.mpr (by decide)
  · rfl

/-- C6: `validateAudits` succeeds exactly when every id of
`options.onlyAudits` occurs in some category's `auditRefs` (and always when
the `onlyAudits` key is absent — an empty list is covered by the
quantifier), and any error it throws is the descriptive message naming an
unknown audit id. -/
theorem c6_validateAudits_spec (cats : List (String × Category)) (options : Options) :
    (options.onlyAudits = none → validateAudits cats options = Except.ok ()) ∧
    (∀ oa, options.onlyAudits = some oa →
      ((validateAudits cats options = Except.ok () ↔
          ∀ aid ∈ oa,
            cats.any (fun c => c.2.auditRefs.any (fun ar => ar.id = aid)) = true) ∧
        (∀ e, validateAudits cats options = Except.error e →
          ∃ aid ∈ oa,
            cats.any (fun c => c.2.auditRefs.any (fun ar => ar.id = aid)) = false ∧
              e = JsError.error ("Audit <" ++ aid ++ "> is unknown")))) := by
  refine ⟨fun h => by simp [validateAudits, h], fun oa hoa => ?_⟩
  have hv : validateAudits cats options =
      List.foldlM
        (fun (_ : Unit) auditId =>
          if cats.any (fun c => c.2.auditRefs.any (fun ar => ar.id = auditId)) then Except.ok ()
          else Except.error (JsError.error ("Audit <" ++ auditId ++ "> is unknown")))
        () oa := by
    simp only [validateAudits, hoa]
  rw [hv]
  exact ⟨auditCheckFold_ok_iff cats oa, auditCheckFold_error cats oa⟩

/-- C6 witness: with the single category foo holding audit a, selecting a
passes and selecting z throws the error naming z. -/
theorem c6_validateAudits_spec_witness :
    validateAudits [(("foo" : String), catFoo)] optsOnlyA = Except.ok () ∧
    validateAudits [(("foo" : String), catFoo)] optsOnlyZ =
      Except.error (JsError.error ("Audit <z> is unknown")) := by
  constructor
  · exact ((c6_validateAudits_spec [(("foo" : String), catFoo)] optsOnlyA).2 _
      rfl).1.mpr (by decide)
  · rfl

/-- C7 counterexample: for the flags of the claim, the prepared options do
NOT contain a `showAudits` field equal to false — `prepareOptions` has no
default for `showAudits`, so the key stays absent. -/
theorem c7_showaudits_field_counterexample :
    (getConfig (some ("https://example.com")) (some ("a,b")) (some ("perf:90,seo:50"))
        false).map prepareOptions ≠
      Except.ok
        { urls := some [some ("https://example.com")],
          onlyAudits := some [("a" : String), "b"],
          scores := some [(("perf" : String), JsNum.num 90), (("seo" : String), JsNum.num 50)],
          showAudits := some false, extendedInfo := some false, allAudits := some false } := by
  intro h
  have h1 : (getConfig (some ("https://example.com")) (some ("a,b"))
      (some ("perf:90,seo:50")) false).map prepareOptions =
      Except.ok
        { urls := some [some ("https://example.com")],
          onlyAudits := some [("a" : String), "b"],
          scores := some [(("perf" : String), JsNum.num 90), (("seo" : String), JsNum.num 50)],
          showAudits := none, extendedInfo := some false, allAudits := some false } := rfl
  rw [h1] at h
  have h2 := Except.ok.inj h
  exact Option.noConfusion (congrArg Options.showAudits h2)

/-- C7 (amended): for `--url=https://example.com --audits=a,b
--scores=perf:90,seo:50` without `--showaudits`, the prepared options hold
the claimed `urls`, `onlyAudits`, `scores`, `extendedInfo:false` and
`allAudits:false`, but the `showAudits` key is absent (undefined, hence
falsy) rather than present with value false. -/
theorem c7_prepared_options :
    (getConfig (some ("https://example.com")) (some ("a,b")) (some ("perf:90,seo:50"))
        false).map prepareOptions =
      Except.ok
        { urls := some [some ("https://example.com")],
          onlyAudits := some [("a" : String), "b"],
          scores := some [(("perf" : String), JsNum.num 90), (("seo" : String), JsNum.num 50)],
          showAudits := none, extendedInfo := some false, allAudits := some false } := rfl

/-- C8: when `options.showAudits` is truthy, `scan` returns no-failure on
every report whose audit references resolve, for arbitrary options — in
particular neither validator runs, so unknown ids in `options.scores` or
`options.onlyAudits` cause no error (see the witness). -/
theorem c8_scan_showAudits_no_failure (results : Report) (options : Options)
    (hshow : jsTruthy options.showAudits = true)
    (hwf : ∀ c ∈ results.categories, ∀ ar ∈ c.2.auditRefs,
      (objGet results.audits ar.id).isSome = true) :
    scan results options = Except.ok false := by
  have h1 := scanShowAudits_ok results hwf
  simp [scan, hshow, h1, except_bind_ok]

/-- C8 witness: with `showAudits` on, a report is scanned without failure
even though `options.scores` names the unknown category boguscat and
`options.onlyAudits` the unknown audit bogusaudit. -/
theorem c8_scan_showAudits_no_failure_witness : scan repW optsShowW = Except.ok false :=
  c8_scan_showAudits_no_failure repW optsShowW rfl (by decide)

/-- C9: a `--scores` token without a colon makes the builder throw the
low-level TypeError from dereferencing the null regex match (not a
descriptive configuration error), and `getConfig` returns no options record
for that invocation. -/
theorem c9_malformed_scores_token (s tok : String) (url audits : Option String) (sh : Bool)
    (hmem : tok ∈ jsSplitComma s) (hnc : ':' ∉ tok.toList) (hs : s ≠ "") :
    parseScores s = Except.error (JsError.typeError nullDerefMsg) ∧
    getConfig url audits (some s) sh = Except.error (JsError.typeError nullDerefMsg) := by
  have hp : (jsSplitComma s).foldlM parseScoreToken [] =
      Except.error (JsError.typeError nullDerefMsg) :=
    parseScoreFold_error _ _ ⟨tok, hmem, matchColonPair_eq_none tok hnc⟩
  have ht : jsStrTruthy s = true := by simp [jsStrTruthy, hs]
  refine ⟨hp, ?_⟩
  simp [getConfig, ht, parseScores, hp, except_bind_error, except_map_error]

/-- C9 witness: the colon-free token `perf90`. -/
theorem c9_malformed_scores_token_witness :
    parseScores ("perf90") = Except.error (JsError.typeError nullDerefMsg) ∧
    getConfig none none (some ("perf90")) false =
      Except.error (JsError.typeError nullDerefMsg) :=
  c9_malformed_scores_token ("perf90") ("perf90") none none false
    (by decide) (by decide) (by decide)

/-- C10: an audit with a mode outside manual, not-applicable, informative and
error but a null score is classified 0 (not passed): `Number(null)` is 0,
which is below the 0.75 threshold. -/
theorem c10_null_score_not_passed (a : Audit)
    (h : a.scoreDisplayMode ∉ [("manual" : String), "not-applicable", "informative", "error"])
    (hs : a.score = none) :
    auditPassedStatus a = 0 := by
  simp only [List.mem_cons, not_or, List.not_mem_nil] at h
  obtain ⟨h1, h2, h3, h4, -⟩ := h
  simp [auditPassedStatus, h1, h2, h3, h4, hs, scoreToNumber, jsGe]

/-- C10 witness: a numeric audit with score null. -/
theorem c10_null_score_not_passed_witness : auditPassedStatus auditNullW = 0 :=
  c10_null_score_not_passed auditNullW (by decide) rfl
